import Mathlib

/-!
Verification of the `typed` utility library (Option / Result / parser
combinators) against its natural-language specification.

The TypeScript sources are embedded shallowly:

* the tagged unions `Option` and `Result` become Lean inductives with the
  same constructor names;
* the repository contains both a functional module and a class-based
  module for each of Option and Result; class methods are modelled in the
  namespaces `Option` / `Result`, while the standalone functions of the
  functional modules (src/result.ts and the functional option module) are
  modelled in the namespaces `ResultF` / `OptionF`;
* code that can throw (the `raise` helper, JavaScript `String()` /
  `Number()` conversions) returns an explicit `Outcome` value instead of
  throwing;
* the parser combinator vocabulary becomes an inductive syntax
  `ParserExpr` with an executable evaluator `evalP` over a model
  `JSValue` of the JavaScript value universe.
-/

namespace Typed

/-- Outcome of running a piece of JavaScript code that may throw: either an
exception escaped (`thrown`, carrying the error message) or the code
returned a value (`ret`). -/
inductive Outcome (α : Type u) where
  | thrown (msg : String)
  | ret (val : α)
deriving Repr

/-- Maps the returned value of an `Outcome`, propagating a thrown error. -/
def Outcome.map (f : α → β) : Outcome α → Outcome β
  | .thrown m => .thrown m
  | .ret v => .ret (f v)

/-- Models `raise` from src/util.ts: wraps the message in an `Error` and
throws it.  In the embedding the throw becomes the `thrown` outcome
carrying the message. -/
def raise (msg : String) : Outcome α := .thrown msg

/-- The `Option` sum type: tagged union with variants `Some` (carrying a
value) and `None`, as implemented by both the class in src/option.ts and
the functional option module. -/
inductive Option (T : Type u) where
  | Some (value : T)
  | None
deriving Repr

/-- The `Result` sum type: tagged union with variants `Ok` and `Err`, as
implemented by both src/result.ts and the class-based result module. -/
inductive Result (T : Type u) (E : Type v) where
  | Ok (value : T)
  | Err (error : E)
deriving Repr

/-- Class method `Option.isSome` (src/option.ts): tag equals the `Some`
tag. -/
def Option.isSome : Option T → Bool
  | .Some _ => true
  | .None => false

/-- Class method `Option.isNone` (src/option.ts): `!this.isSome()`. -/
def Option.isNone (o : Option T) : Bool := !o.isSome

/-- Class method `Option.unwrap` (src/option.ts lines 57-61):
`this.match(identity, () => raise("called Option.unwrap on a `None`
value"))`. -/
def Option.unwrap : Option T → Outcome T
  | .Some v => .ret v
  | .None => raise "called Option.unwrap on a \x60None\x60 value"

/-- Class method `Option.filter` (src/option.ts lines 118-127).  The body
is translated statement for statement: when the option is `Some` and the
predicate holds it returns `Some(value)`; in every other case control
falls through to `return this`. -/
def Option.filter (o : Option T) (predicate : T → Bool) : Option T :=
  match o with
  | .Some value => if predicate value then .Some value else o
  | .None => o

/-- Class method `Option.xor` (src/option.ts lines 140-144). -/
def Option.xor (o : Option T) (optb : Option T) : Option T :=
  if o.isSome && optb.isNone then o
  else if o.isNone && optb.isSome then optb
  else .None

/-! Functional option module (src/unnamed/part_000): the standalone
functions exported by the object-literal based option module. -/

namespace OptionF

/-- Standalone `filter` (part_000 lines 133-136):
`isSome(opt) && predicate(opt.value) ? opt : None`. -/
def filter (opt : Option T) (predicate : T → Bool) : Option T :=
  match opt with
  | .Some value => if predicate value then .Some value else .None
  | .None => .None

/-- Standalone `unwrapOr` (part_000 lines 242-243):
`isSome(opt) ? opt.value : def`. -/
def unwrapOr (opt : Option T) (dflt : T) : T :=
  match opt with
  | .Some value => value
  | .None => dflt

/-- Standalone `unwrap` (part_000 lines 232-233). -/
def unwrap : Option T → Outcome T
  | .Some v => .ret v
  | .None => raise "called Option.unwrap on a \x60None\x60 value"

end OptionF

/-- Class method `Result.isOk` (class-based result module,
src/unnamed/part_001). -/
def Result.isOk : Result T E → Bool
  | .Ok _ => true
  | .Err _ => false

/-- Class method `Result.unwrap` (src/unnamed/part_001):
`this.match(identity, () => raise("called Result.unwrap on an `Err`
value"))`. -/
def Result.unwrap : Result T E → Outcome T
  | .Ok v => .ret v
  | .Err _ => raise "called Result.unwrap on an \x60Err\x60 value"

/-! Functional result module (src/result.ts): standalone functions over
the plain tagged-union `Result`. -/

namespace ResultF

/-- Standalone `isOk` (src/result.ts lines 51-52). -/
def isOk : Result T E → Bool
  | .Ok _ => true
  | .Err _ => false

/-- Standalone `unwrap` (src/result.ts lines 233-234):
`isErr(res) ? raise("called unwrap on an `Err` value") : res.value`. -/
def unwrap : Result T E → Outcome T
  | .Ok v => .ret v
  | .Err _ => raise "called unwrap on an \x60Err\x60 value"

/-- Standalone `unwrapOr` (src/result.ts lines 256-257):
`isOk(res) ? res.value : def`. -/
def unwrapOr (res : Result T E) (dflt : T) : T :=
  match res with
  | .Ok value => value
  | .Err _ => dflt

/-- Standalone `ok` (src/result.ts lines 278-279):
`isOk(res) ? Some(res.value) : None`. -/
def ok : Result T E → Option T
  | .Ok v => .Some v
  | .Err _ => .None

end ResultF

/-! Model of the JavaScript value universe, as far as the parser
combinators observe it.  Numbers are modelled as NaN, signed infinity, or
a finite integer (fractional doubles are outside the model; no claim
depends on them).  `someObj` and `noneObj` model instances of the Option
class appearing as runtime values (they are produced by the `optional`
combinator); `typeof` reports them as objects and they are not plain
objects.  A plain object carries a flag recording whether its prototype
is null (the library itself produces null-prototype objects via
`Object.create(null)`); this matters because JavaScript throws a
`TypeError` when converting such an object to a primitive.  The field
list of `obj` records the object's own enumerable string keys in
enumeration order. -/

/-- A JavaScript number: NaN, positive or negative Infinity, or a finite
(integer-valued) number. -/
inductive JSNum where
  | nan
  | inf (pos : Bool)
  | fin (val : Int)
deriving Repr, DecidableEq

/-- A JavaScript runtime value, restricted to the shapes the library
manipulates. -/
inductive JSValue where
  | null
  | undefined
  | bool (b : Bool)
  | num (n : JSNum)
  | str (s : String)
  | sym (id : Nat) (desc : String)
  | arr (elems : List JSValue)
  | obj (nullProto : Bool) (fields : List (String × JSValue))
  | date (time : JSNum)
  | someObj (value : JSValue)
  | noneObj
deriving Repr

/-- Host-defined behaviour that ECMAScript leaves implementation-defined:
the textual rendering of a Date (Date.prototype.toString) and the parsing
of a date from a string (new Date(string)).  The evaluator is
parameterised over it; no claim depends on a particular choice. -/
structure Host where
  dateToString : JSNum → String
  dateFromString : String → JSNum

/-- A concrete trivial host, used to state closed theorems about inputs
that never touch Date formatting or parsing. -/
def host0 : Host := ⟨fun _ => "", fun _ => .nan⟩

/-- Renders a JavaScript number as `String()` does (integers in decimal,
NaN and the infinities by name). -/
def numToString : JSNum → String
  | .nan => "NaN"
  | .inf true => "Infinity"
  | .inf false => "-Infinity"
  | .fin n => toString n

/-- ECMAScript StringToNumber, restricted to the integer fragment of the
model: surrounding whitespace is trimmed, the empty string is 0, the
Infinity literals are recognised, signed decimal integer literals parse
to their value, and anything else is NaN.  (Fractional, exponent and hex
literals are outside the integer model.) -/
def stringToNumber (s : String) : JSNum :=
  let t := s.trim
  if t = "" then .fin 0
  else if t = "Infinity" || t = "+Infinity" then .inf true
  else if t = "-Infinity" then .inf false
  else
    match (if t.startsWith "+" then (t.drop 1).toInt? else t.toInt?) with
    | some n => .fin n
    | none => .nan

mutual

/-- Models the JavaScript `String()` conversion.  For symbols, `String()`
returns the symbol description wrapped in Symbol(...) without throwing.
Converting a null-prototype object throws a TypeError because it has no
`toString` or `valueOf`; an ordinary plain object renders as
"[object Object]".  Arrays rendered via Array.prototype.toString join
their elements (which can itself throw). -/
def jsToString (h : Host) : JSValue → Outcome String
  | .null => .ret "null"
  | .undefined => .ret "undefined"
  | .bool b => .ret (if b then "true" else "false")
  | .num n => .ret (numToString n)
  | .str s => .ret s
  | .sym _ desc => .ret ("Symbol(" ++ desc ++ ")")
  | .date t => .ret (h.dateToString t)
  | .obj false _ => .ret "[object Object]"
  | .obj true _ => .thrown "TypeError: Cannot convert object to primitive value"
  | .arr elems => jsArrJoin h elems
  | .someObj _ => .ret "[object Object]"
  | .noneObj => .ret "[object Object]"

/-- Array.prototype.join with the default comma separator: null and
undefined elements render as the empty string, all others via
`String()`, which can throw. -/
def jsArrJoin (h : Host) : List JSValue → Outcome String
  | [] => .ret ""
  | [x] =>
    (match x with
     | .null => .ret ""
     | .undefined => .ret ""
     | v => jsToString h v)
  | x :: xs =>
    match (match x with
           | .null => Outcome.ret ""
           | .undefined => Outcome.ret ""
           | v => jsToString h v) with
    | .thrown m => .thrown m
    | .ret s =>
      match jsArrJoin h xs with
      | .thrown m => .thrown m
      | .ret rest => .ret (s ++ "," ++ rest)

end

/-- Models the JavaScript `Number()` conversion (ToNumber).  Symbols make
it throw a TypeError; objects go through ToPrimitive, which throws for
null-prototype objects, yields the joined-string route for arrays, and
"[object Object]" (hence NaN) for ordinary plain objects; Dates convert
to their timestamp. -/
def jsToNumber (h : Host) : JSValue → Outcome JSNum
  | .null => .ret (.fin 0)
  | .undefined => .ret .nan
  | .bool b => .ret (.fin (if b then 1 else 0))
  | .num n => .ret n
  | .str s => .ret (stringToNumber s)
  | .sym _ _ => .thrown "TypeError: Cannot convert a Symbol value to a number"
  | .date t => .ret t
  | .arr elems => (jsArrJoin h elems).map stringToNumber
  | .obj false _ => .ret .nan
  | .obj true _ => .thrown "TypeError: Cannot convert object to primitive value"
  | .someObj _ => .ret .nan
  | .noneObj => .ret .nan

/-! Type guards from src/guards.ts, restricted to the value model. -/

/-- Guard `isString`. -/
def isString : JSValue → Bool
  | .str _ => true
  | _ => false

/-- Guard `isNumber`: `typeof input === "number"`, so NaN and the
infinities count as numbers. -/
def isNumber : JSValue → Bool
  | .num _ => true
  | _ => false

/-- Guard `isBoolean`. -/
def isBoolean : JSValue → Bool
  | .bool _ => true
  | _ => false

/-- Guard `isNil`: null or undefined. -/
def isNil : JSValue → Bool
  | .null => true
  | .undefined => true
  | _ => false

/-- Guard `isArray`. -/
def isArray : JSValue → Bool
  | .arr _ => true
  | _ => false

/-- Guard `isPlainObject`: an object whose prototype is null or
Object.prototype; arrays, dates and class instances are not plain. -/
def isPlainObject : JSValue → Bool
  | .obj _ _ => true
  | _ => false

/-- Guard `isValidNumber`: a number that is finite (rejects NaN and the
infinities). -/
def isValidNumber : JSValue → Bool
  | .num (.fin _) => true
  | _ => false

/-- Guard `isValidDate`: a Date whose internal timestamp is not NaN. -/
def isValidDate : JSValue → Bool
  | .date (.fin _) => true
  | _ => false

/-- Models `getTypeOf` from src/util.ts on the value model: the lowercase
type-descriptor strings of the `Type` enum. -/
def getTypeOf : JSValue → String
  | .null => "null"
  | .undefined => "undefined"
  | .bool _ => "boolean"
  | .num .nan => "nan"
  | .num (.inf _) => "infinity"
  | .num (.fin _) => "number"
  | .str _ => "string"
  | .sym _ _ => "symbol"
  | .arr _ => "array"
  | .obj _ _ => "object"
  | .date _ => "date"
  | .someObj _ => "object"
  | .noneObj => "object"

/-- The `ParseError` record (src parser module): message, expected and
actual type descriptors, the offending input, and the accumulating
path. -/
structure ParseError where
  message : String
  expected : String
  actual : String
  input : JSValue
  path : List String
deriving Repr

/-- Models `typeErr` from the parser module: builds a ParseError with an
empty path from an expected-type descriptor and the offending input. -/
def typeErr (expected : String) (input : JSValue) : ParseError :=
  let actual := getTypeOf input
  { message := "Type \x27" ++ actual ++ "\x27 is not assignable to type \x27"
               ++ expected ++ "\x27",
    expected := expected,
    actual := actual,
    input := input,
    path := [] }

/-- A literal constant as accepted by the `literal` combinator (the
`Literal` type of src/types.ts: string, number, boolean or null). -/
inductive JSLit where
  | str (s : String)
  | num (n : JSNum)
  | bool (b : Bool)
  | null
deriving Repr, DecidableEq

/-- The runtime value of a literal constant. -/
def litToValue : JSLit → JSValue
  | .str s => .str s
  | .num n => .num n
  | .bool b => .bool b
  | .null => .null

/-- `String(constant)` for a literal constant (total, never throws). -/
def litToString : JSLit → String
  | .str s => s
  | .num n => numToString n
  | .bool b => if b then "true" else "false"
  | .null => "null"

/-- JavaScript strict equality between a literal constant and a runtime
value: NaN is unequal to everything, including itself. -/
def strictEqLit : JSLit → JSValue → Bool
  | .str s, .str t => s == t
  | .num (.fin a), .num (.fin b) => a == b
  | .num (.inf a), .num (.inf b) => a == b
  | .bool a, .bool b => a == b
  | .null, .null => true
  | _, _ => false

/-- SameValueZero, the comparison used by `Array.prototype.includes` in
the `enums` combinator: like strict equality except that NaN equals
NaN. -/
def sameValueZeroLit : JSLit → JSValue → Bool
  | .num .nan, .num .nan => true
  | l, v => strictEqLit l v

/-- Syntax of the parser combinator vocabulary of the parser module.
`chain` carries its pure transform functions and `map` its refining
function as Lean functions (they are user-supplied pure callbacks in the
source).  The derived parsers `list`, `email` and `uuid` are compositions
of `map`/`chain` over this vocabulary. -/
inductive ParserExpr where
  | string (coerce : Bool)
  | number (coerce : Bool)
  | boolean
  | date (coerce : Bool)
  | optional (p : ParserExpr)
  | defaulted (p : ParserExpr) (dflt : JSValue)
  | maybe (p : ParserExpr)
  | array (p : ParserExpr)
  | object (shape : List (String × ParserExpr))
  | record (kp : ParserExpr) (vp : ParserExpr)
  | tuple (ps : List ParserExpr)
  | union (ps : List ParserExpr)
  | intersection (ps : List ParserExpr)
  | literal (c : JSLit)
  | enums (vals : List JSLit)
  | chain (p : ParserExpr) (fns : List (JSValue → JSValue))
  | map (p : ParserExpr) (f : JSValue → Result JSValue ParseError)
  | unknown

/-- Shorthand for the result type of a parser invocation. -/
abbrev PResult := Result JSValue ParseError

/-- A denoted parser: a function from an input value to an outcome (the
invocation may throw) carrying a Result. -/
abbrev ParserFn := JSValue → Outcome PResult

/-- The JavaScript runtime `name` of each parser function.  The parsers
returned by the combinator factories are arrow functions that are not
directly assigned to a named binding, so function-name inference leaves
their name empty; the identity parser `unknown` is declared as a named
const, so its name is "unknown". -/
def jsName : ParserExpr → String
  | .unknown => "unknown"
  | _ => ""

/-- The synthesized expected-type descriptor of `union`:
`parsers.map((s) => s.name).join(" | ")`. -/
def unionExpected (ps : List ParserExpr) : String :=
  String.intercalate " | " (ps.map jsName)

/-- JavaScript property read `fields[key]` on the model of an object: the
value at the first matching key, or undefined when the key is absent. -/
def getField (fields : List (String × JSValue)) (key : String) : JSValue :=
  match fields.find? (fun kv => kv.1 == key) with
  | some kv => kv.2
  | none => .undefined

/-- JavaScript property assignment `obj[key] = v` on the model of an
object: overwrite in place if the key is present, else append. -/
def setField (fields : List (String × JSValue)) (key : String) (v : JSValue) :
    List (String × JSValue) :=
  match fields with
  | [] => [(key, v)]
  | kv :: rest =>
    if kv.1 == key then (key, v) :: rest else kv :: setField rest key v

/-- Own enumerable properties of a value as seen by `Object.assign`:
objects contribute their fields, arrays and strings their indexed
elements, everything else nothing. -/
def assignSourceFields : JSValue → List (String × JSValue)
  | .obj _ f => f
  | .arr es => es.enum.map (fun p => (toString p.1, p.2))
  | .str s => s.toList.enum.map (fun p => (toString p.1, JSValue.str (String.singleton p.2)))
  | _ => []

/-- Element loop of the `array` combinator (parser module lines 970-979):
parse each element left to right; on the first failure prepend the
element index to the error path and abort; on success collect the parsed
elements in order. -/
def arrayLoop (f : ParserFn) : List JSValue → Nat → Outcome (Result (List JSValue) ParseError)
  | [], _ => .ret (.Ok [])
  | x :: xs, i =>
    match f x with
    | .thrown m => .thrown m
    | .ret (.Err e) => .ret (.Err { e with path := toString i :: e.path })
    | .ret (.Ok v) =>
      match arrayLoop f xs (i + 1) with
      | .thrown m => .thrown m
      | .ret (.Err e) => .ret (.Err e)
      | .ret (.Ok vs) => .ret (.Ok (v :: vs))

/-- Key loop of the `record` combinator (parser module lines 1026-1040):
for each input key, parse the key then the value, prepending the RAW
input key to the error path on either failure; on success assign the
parsed value under the parsed key (property keys go through the
`String()` conversion, which is the identity on strings). -/
def recordLoop (h : Host) (fk fv : ParserFn) :
    List (String × JSValue) → List (String × JSValue) →
    Outcome (Result (List (String × JSValue)) ParseError)
  | [], acc => .ret (.Ok acc)
  | (key, value) :: rest, acc =>
    match fk (.str key) with
    | .thrown m => .thrown m
    | .ret (.Err e) => .ret (.Err { e with path := key :: e.path })
    | .ret (.Ok kparsed) =>
      match fv value with
      | .thrown m => .thrown m
      | .ret (.Err e) => .ret (.Err { e with path := key :: e.path })
      | .ret (.Ok vparsed) =>
        match jsToString h kparsed with
        | .thrown m => .thrown m
        | .ret kstr => recordLoop h fk fv rest (setField acc kstr vparsed)

/-- Shape loop of the `object` combinator (parser module lines 995-1003):
for each key declared in the shape, parse `input[key]`; on the first
failure prepend the shape key to the error path and abort; unknown input
keys are never consulted. -/
def objectLoop (fields : List (String × JSValue)) :
    List (String × ParserFn) → Outcome (Result (List (String × JSValue)) ParseError)
  | [] => .ret (.Ok [])
  | (key, f) :: rest =>
    match f (getField fields key) with
    | .thrown m => .thrown m
    | .ret (.Err e) => .ret (.Err { e with path := key :: e.path })
    | .ret (.Ok v) =>
      match objectLoop fields rest with
      | .thrown m => .thrown m
      | .ret (.Err e) => .ret (.Err e)
      | .ret (.Ok kvs) => .ret (.Ok ((key, v) :: kvs))

/-- Position loop of the `tuple` combinator (parser module lines
1141-1149): one parser per position, missing positions read as
undefined, extra input elements are ignored. -/
def tupleLoop (elems : List JSValue) :
    List ParserFn → Nat → Outcome (Result (List JSValue) ParseError)
  | [], _ => .ret (.Ok [])
  | f :: rest, i =>
    match f (elems.getD i .undefined) with
    | .thrown m => .thrown m
    | .ret (.Err e) => .ret (.Err { e with path := toString i :: e.path })
    | .ret (.Ok v) =>
      match tupleLoop elems rest (i + 1) with
      | .thrown m => .thrown m
      | .ret (.Err e) => .ret (.Err e)
      | .ret (.Ok vs) => .ret (.Ok (v :: vs))

/-- Branch loop of the `union` combinator (parser module lines
1169-1173): try each branch in order and stop at the first Ok result;
`Some` carries that first success, `None` means every branch failed. -/
def unionLoop (input : JSValue) : List ParserFn → Outcome (Option PResult)
  | [] => .ret .None
  | f :: rest =>
    match f input with
    | .thrown m => .thrown m
    | .ret (.Ok v) => .ret (.Some (.Ok v))
    | .ret (.Err _) => unionLoop input rest

/-- Struct loop of the `intersection` combinator (parser module lines
1105-1111): run every struct against the same raw input, merging the
successful outputs with `Object.assign` into a null-prototype object;
the first failure is returned unmodified. -/
def intersectionLoop (input : JSValue) :
    List ParserFn → List (String × JSValue) → Outcome PResult
  | [], acc => .ret (.Ok (.obj true acc))
  | f :: rest, acc =>
    match f input with
    | .thrown m => .thrown m
    | .ret (.Err e) => .ret (.Err e)
    | .ret (.Ok v) =>
      intersectionLoop input rest
        ((assignSourceFields v).foldl (fun a kv => setField a kv.1 kv.2) acc)

mutual

/-- Executable semantics of the combinator vocabulary, translated
combinator by combinator from the parser module.  Where the source
mutates a local `input` binding before validating (the coercing
primitives), the model rebinds it; where the source calls `String()` or
`Number()`, the model uses `jsToString` / `jsToNumber`, which can
throw. -/
def evalP (h : Host) : ParserExpr → ParserFn
  | .string coerce => fun input =>
    match (if coerce then (jsToString h input).map JSValue.str else .ret input) with
    | .thrown m => .thrown m
    | .ret v => .ret (if isString v then .Ok v else .Err (typeErr "string" v))
  | .number coerce => fun input =>
    match (if coerce then (jsToNumber h input).map JSValue.num else .ret input) with
    | .thrown m => .thrown m
    | .ret v => .ret (if isValidNumber v then .Ok v else .Err (typeErr "number" v))
  | .boolean => fun input =>
    .ret (if isBoolean input then .Ok input else .Err (typeErr "boolean" input))
  | .date coerce => fun input =>
    let v := if coerce && (isString input || isNumber input) then
        (match input with
         | .str s => JSValue.date (h.dateFromString s)
         | .num (.fin t) => JSValue.date (.fin t)
         | .num _ => JSValue.date .nan
         | w => w)
      else input
    .ret (if isValidDate v then .Ok v else .Err (typeErr "date" v))
  | .optional p => fun input =>
    if isNil input then .ret (.Ok .noneObj)
    else
      match evalP h p input with
      | .thrown m => .thrown m
      | .ret (.Ok v) => .ret (.Ok (.someObj v))
      | .ret (.Err e) => .ret (.Err e)
  | .defaulted p dflt => fun input =>
    if isNil input then .ret (.Ok dflt) else evalP h p input
  | .maybe p => fun input =>
    if isNil input then .ret (.Ok input) else evalP h p input
  | .array p => fun input =>
    match input with
    | .arr elems =>
      (match arrayLoop (evalP h p) elems 0 with
       | .thrown m => .thrown m
       | .ret (.Err e) => .ret (.Err e)
       | .ret (.Ok vs) => .ret (.Ok (.arr vs)))
    | _ => .ret (.Err (typeErr "array" input))
  | .object shape => fun input =>
    match input with
    | .obj _ fields =>
      (match objectLoop fields (denoteShape h shape) with
       | .thrown m => .thrown m
       | .ret (.Err e) => .ret (.Err e)
       | .ret (.Ok kvs) => .ret (.Ok (.obj true kvs)))
    | _ => .ret (.Err (typeErr "object" input))
  | .record kp vp => fun input =>
    match input with
    | .obj _ fields =>
      (match recordLoop h (evalP h kp) (evalP h vp) fields [] with
       | .thrown m => .thrown m
       | .ret (.Err e) => .ret (.Err e)
       | .ret (.Ok kvs) => .ret (.Ok (.obj true kvs)))
    | _ => .ret (.Err (typeErr "object" input))
  | .tuple ps => fun input =>
    match input with
    | .arr elems =>
      (match tupleLoop elems (denoteList h ps) 0 with
       | .thrown m => .thrown m
       | .ret (.Err e) => .ret (.Err e)
       | .ret (.Ok vs) => .ret (.Ok (.arr vs)))
    | _ => .ret (.Err (typeErr "array" input))
  | .union ps => fun input =>
    match unionLoop input (denoteList h ps) with
    | .thrown m => .thrown m
    | .ret (.Some r) => .ret r
    | .ret .None => .ret (.Err (typeErr (unionExpected ps) input))
  | .intersection ps => fun input => intersectionLoop input (denoteList h ps) []
  | .literal c => fun input =>
    .ret (if strictEqLit c input then .Ok (litToValue c)
          else .Err (typeErr (litToString c) input))
  | .enums vals => fun input =>
    .ret (if vals.any (fun l => sameValueZeroLit l input) then .Ok input
          else .Err (typeErr (String.intercalate " | " (vals.map litToString)) input))
  | .chain p fns => fun input =>
    match evalP h p input with
    | .thrown m => .thrown m
    | .ret (.Err e) => .ret (.Err e)
    | .ret (.Ok v) => .ret (.Ok (fns.foldl (fun a f => f a) v))
  | .map p f => fun input =>
    match evalP h p input with
    | .thrown m => .thrown m
    | .ret (.Err e) => .ret (.Err e)
    | .ret (.Ok v) => .ret (f v)
  | .unknown => fun input => .ret (.Ok input)

/-- Denotes each shape entry of an `object` combinator. -/
def denoteShape (h : Host) : List (String × ParserExpr) → List (String × ParserFn)
  | [] => []
  | (k, p) :: rest => (k, evalP h p) :: denoteShape h rest

/-- Denotes each parser of a parser list. -/
def denoteList (h : Host) : List ParserExpr → List ParserFn
  | [] => []
  | p :: rest => evalP h p :: denoteList h rest

end

/-! Reference-semantics model of the error-path accumulation.  The pure
evaluator above cannot observe object identity, so for the immutability
claim the ParseError objects live in an explicit heap (a list indexed by
allocation order) and an `Err` result carries a reference into that
heap — exactly the picture in the JavaScript runtime, where the child
parser allocates a ParseError, returns it inside `Err`, and the enclosing
combinator then runs `err.path.unshift(...)` on that same object. -/

/-- Models `err.path.unshift(seg)`: an in-place update of the ParseError
object at `ref`, prepending `seg` to its path array. -/
def unshiftPath (heap : List ParseError) (ref : Nat) (seg : String) :
    List ParseError :=
  match heap[ref]? with
  | some e => heap.set ref { e with path := seg :: e.path }
  | none => heap

/-- The error branch shared by the array/object/record/tuple combinators
(parser module lines 973-976, 997-1000, 1028-1031 and 1143-1146): given
the heap and the reference to the ParseError that the child parser just
returned, execute `err.path.unshift(seg)` — `seg` is `i.toString()` for
array/tuple and the key for object/record — and re-return the SAME
reference wrapped in `Err`. -/
def combinatorHandleErr (heap : List ParseError) (ref : Nat) (seg : String) :
    List ParseError × Result JSValue Nat :=
  (unshiftPath heap ref seg, .Err ref)

/-- One raw input entry of `record` together with its parsed counterpart:
the key parser maps the raw key to the parsed key and the value parser
maps the raw value to the parsed value. -/
def recordParses (fk fv : ParserFn) (kv pv : String × JSValue) : Prop :=
  fk (.str kv.1) = .ret (.Ok (.str pv.1)) ∧ fv kv.2 = .ret (.Ok pv.2)

/-! Claim theorems. -/

/-- C4: the claim states that `filter` turns `Some(v)` into `None` when
the predicate rejects `v`.  The class method `Option.filter`
(src/option.ts lines 118-127) violates this: when the predicate is false
it falls through to `return this`, yielding the original `Some`.  The
standalone `filter` of the functional option module (and the repository's
own test for it) returns `None` on the same input, so the class method is
the slip.  Evaluated at the failing input `Some(69)` with the predicate
`v === 70`: the class method returns `Some(69)`; the functional filter
returns `None`. -/
theorem class_option_filter_keeps_some_on_false_predicate :
    Option.filter (.Some (69 : Nat)) (fun v => v == 70) = .Some 69
      ∧ OptionF.filter (.Some (69 : Nat)) (fun v => v == 70) = .None :=
  ⟨rfl, rfl⟩

/-- C5 (counterexample): the standalone `unwrap` of src/result.ts (lines
233-234) raises with the message "called unwrap on an Err value" (in
backticks), not the message "called Result.unwrap on an Err value" that
the claim quotes; the two message strings differ. -/
theorem functional_result_unwrap_message_differs :
    ResultF.unwrap (.Err "boom" : Result Nat String)
        = .thrown "called unwrap on an \x60Err\x60 value"
      ∧ ("called unwrap on an \x60Err\x60 value"
          == "called Result.unwrap on an \x60Err\x60 value") = false :=
  ⟨rfl, by decide⟩

/-- C5 (amended): calling unwrap() on None raises an unrecoverable error,
and calling unwrap() on an Err value raises an unrecoverable error — with
the message "called Result.unwrap on an Err value" in the class-based
Result module and the message "called unwrap on an Err value" in the
standalone src/result.ts — while unwrap() on Some(v) and on Ok(v) returns
v and never raises. -/
theorem unwrap_raises_on_none_and_err_returns_on_some_and_ok :
    (∀ (T : Type), Option.unwrap (.None : Option T)
        = raise "called Option.unwrap on a \x60None\x60 value")
  ∧ (∀ (T E : Type) (e : E), Result.unwrap (.Err e : Result T E)
        = raise "called Result.unwrap on an \x60Err\x60 value")
  ∧ (∀ (T E : Type) (e : E), ResultF.unwrap (.Err e : Result T E)
        = raise "called unwrap on an \x60Err\x60 value")
  ∧ (∀ (T : Type) (v : T), Option.unwrap (.Some v) = .ret v)
  ∧ (∀ (T E : Type) (v : T), Result.unwrap (.Ok v : Result T E) = .ret v)
  ∧ (∀ (T E : Type) (v : T), ResultF.unwrap (.Ok v : Result T E) = .ret v) :=
  ⟨fun _ => rfl, fun _ _ _ => rfl, fun _ _ _ => rfl,
   fun _ _ => rfl, fun _ _ _ => rfl, fun _ _ _ => rfl⟩

/-- C7: for every Result r, `r.ok()` is Some exactly when r is Ok
(`Ok(v).ok() = Some(v)` and `Err(e).ok() = None`), and for every fallback
x, `r.ok().unwrapOr(x)` equals `r.unwrapOr(x)`. -/
theorem result_ok_projection_agrees_with_unwrapOr :
    ∀ (T E : Type) (r : Result T E) (v : T) (e : E) (x : T),
      (ResultF.ok (.Ok v : Result T E) = .Some v)
    ∧ (ResultF.ok (.Err e : Result T E) = .None)
    ∧ ((ResultF.ok r).isSome = ResultF.isOk r)
    ∧ (OptionF.unwrapOr (ResultF.ok r) x = ResultF.unwrapOr r x) := by
  intro T E r v e x
  refine ⟨rfl, rfl, ?_, ?_⟩ <;> cases r <;> rfl

/-- C10: `a.xor(b)` returns the unique Some operand when exactly one of a
and b is Some, and returns None when both are Some or both are None. -/
theorem option_xor_exactly_one_some :
    ∀ (T : Type) (a b : Option T),
      (a.isSome = true → b.isSome = false → Option.xor a b = a)
    ∧ (a.isSome = false → b.isSome = true → Option.xor a b = b)
    ∧ (a.isSome = b.isSome → Option.xor a b = .None) := by
  intro T a b
  cases a <;> cases b <;>
    simp [Option.xor, Option.isSome, Option.isNone]

/-- C10 (witness): the xor table at concrete operands, obtained by
applying the xor theorem and discharging its hypotheses. -/
theorem option_xor_exactly_one_some_witness :
    Option.xor (.Some (1 : Nat)) .None = .Some 1
  ∧ Option.xor (.None : Option Nat) (.Some 2) = .Some 2
  ∧ Option.xor (.Some (1 : Nat)) (.Some 2) = .None
  ∧ Option.xor (.None : Option Nat) .None = .None :=
  ⟨(option_xor_exactly_one_some Nat (.Some 1) .None).1 rfl rfl,
   (option_xor_exactly_one_some Nat .None (.Some 2)).2.1 rfl rfl,
   (option_xor_exactly_one_some Nat (.Some 1) (.Some 2)).2.2 rfl,
   (option_xor_exactly_one_some Nat .None .None).2.2 rfl⟩

/-- C1: the claim states that no parser of the combinator vocabulary ever
throws.  The coercing number parser violates it: `number({coerce: true})`
first runs `Number(input)`, and the ECMAScript ToNumber conversion throws
a TypeError on a Symbol before any validation runs, so the invocation
throws instead of returning a Result.  This evaluates the embedded parser
at the failing input. -/
theorem number_coerce_throws_on_symbol :
    evalP host0 (.number true) (.sym 0 "tag")
      = .thrown "TypeError: Cannot convert a Symbol value to a number" := rfl

/-- C8 (counterexample): the claim states that `string({coerce: true})`
returns `Ok(String(input))` for every input.  At the concrete input
`Object.create(null)` (a null-prototype plain object) the `String()`
conversion itself throws a TypeError, so the invocation throws rather
than returning `Ok` of anything. -/
theorem string_coerce_throws_on_null_proto_object :
    evalP host0 (.string true) (.obj true [])
      = .thrown "TypeError: Cannot convert object to primitive value" := rfl

/-- C8 (amended): `string({coerce: true})` never returns `Err`: on every
input whose `String()` conversion succeeds it returns `Ok` of the
converted string; on the remaining inputs (objects that cannot be
converted to a primitive) the `String()` call throws. -/
theorem string_coerce_ok_of_conversion_succeeds :
    ∀ (h : Host) (input : JSValue) (s : String),
      jsToString h input = .ret s →
      evalP h (.string true) input = .ret (.Ok (.str s)) := by
  intro h input s hs
  simp [evalP, hs, Outcome.map, isString]

/-- C8 (witness): the amended theorem applied at the concrete input 123,
whose conversion yields "123". -/
theorem string_coerce_ok_of_conversion_succeeds_witness :
    jsToString host0 (.num (.fin 123)) = .ret "123"
      ∧ evalP host0 (.string true) (.num (.fin 123)) = .ret (.Ok (.str "123")) :=
  ⟨rfl, string_coerce_ok_of_conversion_succeeds host0 (.num (.fin 123)) "123" rfl⟩

/-- C3 (counterexample): the claim states that no core operation ever
mutates a value previously returned to a caller, explicitly including the
path accumulation of the structural combinators.  The array combinator
does the opposite: at the concrete heap holding the single ParseError the
child parser just returned (path still empty), handling the failure of
element 0 runs `err.path.unshift("0")`, after which the heap entry for
that same object carries path ["0"] — the previously returned ParseError
has been mutated in place (and re-returned by reference). -/
theorem array_error_handling_mutates_returned_error :
    combinatorHandleErr [typeErr "number" (.str "x")] 0 "0"
        = ([{ typeErr "number" (.str "x") with path := ["0"] }], .Err 0)
      ∧ ((["0"] : List String) == ([] : List String)) = false :=
  ⟨rfl, by decide⟩

/-- C3 (amended): Option and Result values are immutable, but the path
accumulation of array/object/record/tuple mutates the child parser's
ParseError in place: the combinator prepends its locator to the path
array of the very object the child returned and re-raises the same
reference, rather than allocating a fresh error.  (Each primitive failure
allocates a fresh ParseError per invocation, so values already handed to
the library's external caller are not affected.) -/
theorem combinator_updates_child_error_in_place :
    ∀ (heap : List ParseError) (ref : Nat) (seg : String) (e : ParseError),
      heap[ref]? = some e →
      combinatorHandleErr heap ref seg
        = (heap.set ref { e with path := seg :: e.path }, .Err ref) := by
  intro heap ref seg e he
  simp [combinatorHandleErr, unshiftPath, he]

/-- C3 (witness): the amended theorem applied to a one-object heap and
the key "k". -/
theorem combinator_updates_child_error_in_place_witness :
    combinatorHandleErr [typeErr "string" .null] 0 "k"
      = ([{ typeErr "string" .null with path := ["k"] }], .Err 0) :=
  combinator_updates_child_error_in_place [typeErr "string" .null] 0 "k"
    (typeErr "string" .null) rfl

/-! Loop lemmas used by the path-prepending, union and record claim
theorems. -/

/-- In the array element loop, when every element before position
`i + xs.length` parses and the element there fails with `e`, the loop
aborts with `e` after prepending that index. -/
theorem arrayLoop_err (f : ParserFn) (x : JSValue) (ys : List JSValue) (e : ParseError) :
    ∀ (xs : List JSValue) (i : Nat),
      (∀ z ∈ xs, ∃ v, f z = .ret (.Ok v)) →
      f x = .ret (.Err e) →
      arrayLoop f (xs ++ x :: ys) i
        = .ret (.Err { e with path := toString (i + xs.length) :: e.path }) := by
  intro xs
  induction xs with
  | nil =>
    intro i _ hfail
    simp [arrayLoop, hfail]
  | cons z zs ih =>
    intro i hok hfail
    obtain ⟨v, hv⟩ := hok z (by simp)
    have hrec := ih (i + 1) (fun w hw => hok w (by simp [hw])) hfail
    have harith : i + 1 + zs.length = i + (zs.length + 1) := by omega
    simp [arrayLoop, hv, hrec, harith]

/-- In the object shape loop, when every shape entry before `(k, pe)`
parses and `pe` fails on `input[k]` with `e`, the loop aborts with `e`
after prepending the key `k`. -/
theorem objectLoop_shape_err (h : Host) (fields : List (String × JSValue))
    (k : String) (pe : ParserExpr) (post : List (String × ParserExpr)) (e : ParseError) :
    ∀ (pre : List (String × ParserExpr)),
      (∀ kv ∈ pre, ∃ v, evalP h kv.2 (getField fields kv.1) = .ret (.Ok v)) →
      evalP h pe (getField fields k) = .ret (.Err e) →
      objectLoop fields (denoteShape h (pre ++ (k, pe) :: post))
        = .ret (.Err { e with path := k :: e.path }) := by
  intro pre
  induction pre with
  | nil =>
    intro _ hfail
    simp [denoteShape, objectLoop, hfail]
  | cons kv rest ih =>
    intro hok hfail
    obtain ⟨v, hv⟩ := hok kv (by simp)
    have hrec := ih (fun w hw => hok w (by simp [hw])) hfail
    simp [denoteShape, objectLoop, hv, hrec]

/-- In the tuple position loop, when every position before
`i + pre.length` parses and the parser there fails with `e`, the loop
aborts with `e` after prepending that position index. -/
theorem tupleLoop_denote_err (h : Host) (elems : List JSValue)
    (p : ParserExpr) (post : List ParserExpr) (e : ParseError) :
    ∀ (pre : List ParserExpr) (i : Nat),
      (∀ (j : Nat) (q : ParserExpr), pre[j]? = some q →
        ∃ v, evalP h q (elems.getD (i + j) .undefined) = .ret (.Ok v)) →
      evalP h p (elems.getD (i + pre.length) .undefined) = .ret (.Err e) →
      tupleLoop elems (denoteList h (pre ++ p :: post)) i
        = .ret (.Err { e with path := toString (i + pre.length) :: e.path }) := by
  intro pre
  induction pre with
  | nil =>
    intro i _ hfail
    simp at hfail
    simp [denoteList, tupleLoop, hfail]
  | cons q rest ih =>
    intro i hok hfail
    obtain ⟨v, hv⟩ := hok 0 q (by simp)
    simp at hv
    have hok2 : ∀ (j : Nat) (q2 : ParserExpr), rest[j]? = some q2 →
        ∃ v2, evalP h q2 (elems.getD (i + 1 + j) .undefined) = .ret (.Ok v2) := by
      intro j q2 hq2
      have hj := hok (j + 1) q2 (by simpa using hq2)
      have harith : i + (j + 1) = i + 1 + j := by omega
      rwa [harith] at hj
    have hfail2 : evalP h p (elems.getD (i + 1 + rest.length) .undefined) = .ret (.Err e) := by
      have harith : i + (q :: rest).length = i + 1 + rest.length := by simp; omega
      rwa [harith] at hfail
    have hrec := ih (i + 1) hok2 hfail2
    have harith : i + 1 + rest.length = i + (rest.length + 1) := by omega
    simp [denoteList, tupleLoop, hv, hrec, harith]

/-- When every branch of a union fails, the branch loop exhausts the list
and reports that no branch succeeded. -/
theorem unionLoop_all_err (h : Host) (input : JSValue) :
    ∀ (ps : List ParserExpr),
      (∀ q ∈ ps, ∃ e, evalP h q input = .ret (.Err e)) →
      unionLoop input (denoteList h ps) = .ret .None := by
  intro ps
  induction ps with
  | nil => intro _; simp [denoteList, unionLoop]
  | cons q rest ih =>
    intro hok
    obtain ⟨e, he⟩ := hok q (by simp)
    have hrec := ih (fun w hw => hok w (by simp [hw]))
    simp [denoteList, unionLoop, he, hrec]

/-- When every branch before `p` fails and `p` succeeds with `v`, the
branch loop stops at `p` and yields its Ok result. -/
theorem unionLoop_first_ok (h : Host) (input : JSValue)
    (p : ParserExpr) (post : List ParserExpr) (v : JSValue) :
    ∀ (pre : List ParserExpr),
      (∀ q ∈ pre, ∃ e, evalP h q input = .ret (.Err e)) →
      evalP h p input = .ret (.Ok v) →
      unionLoop input (denoteList h (pre ++ p :: post)) = .ret (.Some (.Ok v)) := by
  intro pre
  induction pre with
  | nil =>
    intro _ hokp
    simp [denoteList, unionLoop, hokp]
  | cons q rest ih =>
    intro herr hokp
    obtain ⟨e, he⟩ := herr q (by simp)
    have hrec := ih (fun w hw => herr w (by simp [hw])) hokp
    simp [denoteList, unionLoop, he, hrec]

/-- When every input entry parses (keys via `fk`, values via `fv`, with
`out` the parsed counterparts), the record loop succeeds and assigns the
parsed pairs over the accumulator in order. -/
theorem recordLoop_ok (h : Host) (fk fv : ParserFn) :
    ∀ (fields out acc : List (String × JSValue)),
      List.Forall₂ (recordParses fk fv) fields out →
      recordLoop h fk fv fields acc
        = .ret (.Ok (out.foldl (fun a kv => setField a kv.1 kv.2) acc)) := by
  intro fields
  induction fields with
  | nil =>
    intro out acc hf
    cases hf
    simp [recordLoop]
  | cons kv rest ih =>
    intro out acc hf
    cases hf with
    | cons hhead htail =>
      obtain ⟨hk, hv⟩ := hhead
      simp [recordLoop, hk, hv, jsToString]
      exact ih _ _ htail

/-- When every entry before `(k, v)` parses and the key parser fails on
`k` with `e`, the record loop aborts with `e` after prepending the raw
key `k`. -/
theorem recordLoop_key_err (h : Host) (fk fv : ParserFn) (k : String) (v : JSValue)
    (post : List (String × JSValue)) (e : ParseError) :
    ∀ (pre out acc : List (String × JSValue)),
      List.Forall₂ (recordParses fk fv) pre out →
      fk (.str k) = .ret (.Err e) →
      recordLoop h fk fv (pre ++ (k, v) :: post) acc
        = .ret (.Err { e with path := k :: e.path }) := by
  intro pre
  induction pre with
  | nil =>
    intro out acc hf hfail
    cases hf
    simp [recordLoop, hfail]
  | cons kv rest ih =>
    intro out acc hf hfail
    cases hf with
    | cons hhead htail =>
      obtain ⟨hk, hv⟩ := hhead
      simp [recordLoop, hk, hv, jsToString]
      exact ih _ _ htail hfail

/-- When every entry before `(k, v)` parses, the key parser accepts `k`,
and the value parser fails on `v` with `e`, the record loop aborts with
`e` after prepending the raw key `k`. -/
theorem recordLoop_value_err (h : Host) (fk fv : ParserFn) (k : String)
    (v kparsed : JSValue) (post : List (String × JSValue)) (e : ParseError) :
    ∀ (pre out acc : List (String × JSValue)),
      List.Forall₂ (recordParses fk fv) pre out →
      fk (.str k) = .ret (.Ok kparsed) →
      fv v = .ret (.Err e) →
      recordLoop h fk fv (pre ++ (k, v) :: post) acc
        = .ret (.Err { e with path := k :: e.path }) := by
  intro pre
  induction pre with
  | nil =>
    intro out acc hf hkok hfail
    cases hf
    simp [recordLoop, hkok, hfail]
  | cons kv rest ih =>
    intro out acc hf hkok hfail
    cases hf with
    | cons hhead htail =>
      obtain ⟨hk, hv⟩ := hhead
      simp [recordLoop, hk, hv, jsToString]
      exact ih _ _ htail hkok hfail

/-- C2 (counterexample): for the nested parser
`object(\x7ba: array(number())\x7d)` on the input `\x7ba: ["x"]\x7d`, the
resulting error path is ["a", "0"]: the innermost failing field (the
array index "0") is the LAST path segment, and the first segment is the
outermost key "a" — so the claim that the innermost failing field ends up
as the first path segment is false at this input (while the outer-to-inner
reading holds). -/
theorem nested_error_path_puts_innermost_last :
    evalP host0 (.object [("a", .array (.number false))])
        (.obj false [("a", .arr [.str "x"])])
      = .ret (.Err { typeErr "number" (.str "x") with path := ["a", "0"] })
    ∧ ((["a", "0"].head? == some "0") = false) := by
  constructor
  · rfl
  · decide

/-- C2 (amended): tuple, array and object each prepend their own locator
(index or key) to the inner error's path as the error propagates outward,
so after full unwind the path reads outer-to-inner: the outermost locator
is the first segment and the innermost failing field's locator is the
last segment. -/
theorem combinators_prepend_locator_outer_to_inner :
    (∀ (h : Host) (p : ParserExpr) (xs ys : List JSValue) (x : JSValue) (e : ParseError),
        (∀ z ∈ xs, ∃ v, evalP h p z = .ret (.Ok v)) →
        evalP h p x = .ret (.Err e) →
        evalP h (.array p) (.arr (xs ++ x :: ys))
          = .ret (.Err { e with path := toString xs.length :: e.path }))
  ∧ (∀ (h : Host) (pre : List (String × ParserExpr)) (k : String) (pe : ParserExpr)
        (post : List (String × ParserExpr)) (proto : Bool)
        (fields : List (String × JSValue)) (e : ParseError),
        (∀ kv ∈ pre, ∃ v, evalP h kv.2 (getField fields kv.1) = .ret (.Ok v)) →
        evalP h pe (getField fields k) = .ret (.Err e) →
        evalP h (.object (pre ++ (k, pe) :: post)) (.obj proto fields)
          = .ret (.Err { e with path := k :: e.path }))
  ∧ (∀ (h : Host) (pre post : List ParserExpr) (p : ParserExpr)
        (elems : List JSValue) (e : ParseError),
        (∀ (j : Nat) (q : ParserExpr), pre[j]? = some q →
          ∃ v, evalP h q (elems.getD j .undefined) = .ret (.Ok v)) →
        evalP h p (elems.getD pre.length .undefined) = .ret (.Err e) →
        evalP h (.tuple (pre ++ p :: post)) (.arr elems)
          = .ret (.Err { e with path := toString pre.length :: e.path })) := by
  refine ⟨?_, ?_, ?_⟩
  · intro h p xs ys x e hok hfail
    have hloop := arrayLoop_err (evalP h p) x ys e xs 0 hok hfail
    simp at hloop
    simp [evalP, hloop]
  · intro h pre k pe post proto fields e hok hfail
    have hloop := objectLoop_shape_err h fields k pe post e pre hok hfail
    simp [evalP, hloop]
  · intro h pre post p elems e hok hfail
    have hok2 : ∀ (j : Nat) (q : ParserExpr), pre[j]? = some q →
        ∃ v, evalP h q (elems.getD (0 + j) .undefined) = .ret (.Ok v) := by
      intro j q hq
      simpa using hok j q hq
    have hfail2 : evalP h p (elems.getD (0 + pre.length) .undefined) = .ret (.Err e) := by
      simpa using hfail
    have hloop := tupleLoop_denote_err h elems p post e pre 0 hok2 hfail2
    simp at hloop
    simp [evalP, hloop]

/-- C2 (witness): the amended theorem applied to one concrete failing
parse per combinator; in each case the locator of the failing position is
the path's last segment after the outer prepend. -/
theorem combinators_prepend_locator_outer_to_inner_witness :
    evalP host0 (.array (.number false)) (.arr [.num (.fin 1), .str "x"])
        = .ret (.Err { typeErr "number" (.str "x") with path := ["1"] })
  ∧ evalP host0 (.object [("a", .boolean), ("b", .number false)])
        (.obj false [("a", .bool true), ("b", .str "y")])
        = .ret (.Err { typeErr "number" (.str "y") with path := ["b"] })
  ∧ evalP host0 (.tuple [.boolean, .number false]) (.arr [.bool true, .str "z"])
        = .ret (.Err { typeErr "number" (.str "z") with path := ["1"] }) := by
  refine ⟨?_, ?_, ?_⟩
  · exact combinators_prepend_locator_outer_to_inner.1 host0 (.number false)
      [.num (.fin 1)] [] (.str "x") (typeErr "number" (.str "x"))
      (by intro z hz; simp at hz; subst hz; exact ⟨.num (.fin 1), rfl⟩) rfl
  · exact combinators_prepend_locator_outer_to_inner.2.1 host0
      [("a", .boolean)] "b" (.number false) [] false
      [("a", .bool true), ("b", .str "y")] (typeErr "number" (.str "y"))
      (by intro kv hkv; simp at hkv; subst hkv; exact ⟨.bool true, rfl⟩) rfl
  · exact combinators_prepend_locator_outer_to_inner.2.2 host0
      [.boolean] [] (.number false) [.bool true, .str "z"] (typeErr "number" (.str "z"))
      (by
        intro j q hq
        match j with
        | 0 => simp at hq; subst hq; exact ⟨.bool true, rfl⟩
        | j + 1 => simp at hq) rfl

/-- C6: union applies the parsers in order and returns the first Ok
result; when every parser fails it returns one synthesized error whose
expected field is the join of the attempted parsers' (JavaScript
runtime) names with " | ", built by `typeErr` from those names and the
input alone, so none of the individual branch errors appear in it. -/
theorem union_first_ok_else_synthesized_error :
    ∀ (h : Host) (input : JSValue),
      (∀ (pre : List ParserExpr) (p : ParserExpr) (post : List ParserExpr) (v : JSValue),
        (∀ q ∈ pre, ∃ e, evalP h q input = .ret (.Err e)) →
        evalP h p input = .ret (.Ok v) →
        evalP h (.union (pre ++ p :: post)) input = evalP h p input)
    ∧ (∀ (ps : List ParserExpr), ps ≠ [] →
        (∀ q ∈ ps, ∃ e, evalP h q input = .ret (.Err e)) →
        evalP h (.union ps) input
          = .ret (.Err (typeErr (unionExpected ps) input))) := by
  intro h input
  constructor
  · intro pre p post v herr hok
    have hloop := unionLoop_first_ok h input p post v pre herr hok
    simp [evalP, hloop, hok]
  · intro ps _ herr
    have hloop := unionLoop_all_err h input ps herr
    simp [evalP, hloop]

/-- C6 (witness): the union theorem applied to `union([boolean, number])`
on 5 (first success wins) and to `union([string, number])` on true (all
branches fail, one synthesized error). -/
theorem union_first_ok_else_synthesized_error_witness :
    evalP host0 (.union [.boolean, .number false]) (.num (.fin 5))
        = evalP host0 (.number false) (.num (.fin 5))
  ∧ evalP host0 (.union [.string false, .number false]) (.bool true)
        = .ret (.Err (typeErr (unionExpected [.string false, .number false]) (.bool true))) := by
  constructor
  · exact (union_first_ok_else_synthesized_error host0 (.num (.fin 5))).1
      [.boolean] (.number false) [] (.num (.fin 5))
      (by intro q hq; simp at hq; subst hq; exact ⟨typeErr "boolean" (.num (.fin 5)), rfl⟩)
      rfl
  · exact (union_first_ok_else_synthesized_error host0 (.bool true)).2
      [.string false, .number false] (by simp)
      (by
        intro q hq
        simp at hq
        rcases hq with hq | hq <;> subst hq
        · exact ⟨typeErr "string" (.bool true), rfl⟩
        · exact ⟨typeErr "number" (.bool true), rfl⟩)

/-- C9: on success, record keys its output object by the values returned
by the key parser (the parsed pairs `out` are assigned, so a transformed
key appears transformed in the output), while on a key failure or a value
failure the RAW input key is the segment prepended to the error path. -/
theorem record_parsed_keys_out_raw_keys_in_path :
    ∀ (h : Host) (kp vp : ParserExpr) (proto : Bool),
      (∀ (fields out : List (String × JSValue)),
        List.Forall₂ (recordParses (evalP h kp) (evalP h vp)) fields out →
        evalP h (.record kp vp) (.obj proto fields)
          = .ret (.Ok (.obj true (out.foldl (fun a kv => setField a kv.1 kv.2) []))))
    ∧ (∀ (pre out : List (String × JSValue)) (k : String) (v : JSValue)
         (post : List (String × JSValue)) (e : ParseError),
        List.Forall₂ (recordParses (evalP h kp) (evalP h vp)) pre out →
        evalP h kp (.str k) = .ret (.Err e) →
        evalP h (.record kp vp) (.obj proto (pre ++ (k, v) :: post))
          = .ret (.Err { e with path := k :: e.path }))
    ∧ (∀ (pre out : List (String × JSValue)) (k : String) (v kparsed : JSValue)
         (post : List (String × JSValue)) (e : ParseError),
        List.Forall₂ (recordParses (evalP h kp) (evalP h vp)) pre out →
        evalP h kp (.str k) = .ret (.Ok kparsed) →
        evalP h vp v = .ret (.Err e) →
        evalP h (.record kp vp) (.obj proto (pre ++ (k, v) :: post))
          = .ret (.Err { e with path := k :: e.path })) := by
  intro h kp vp proto
  refine ⟨?_, ?_, ?_⟩
  · intro fields out hf
    have hloop := recordLoop_ok h (evalP h kp) (evalP h vp) fields out [] hf
    simp [evalP, hloop]
  · intro pre out k v post e hf hfail
    have hloop := recordLoop_key_err h (evalP h kp) (evalP h vp) k v post e pre out [] hf hfail
    simp [evalP, hloop]
  · intro pre out k v kparsed post e hf hkok hfail
    have hloop := recordLoop_value_err h (evalP h kp) (evalP h vp) k v kparsed post e
      pre out [] hf hkok hfail
    simp [evalP, hloop]

/-- C9 (witness): the record theorem applied with a key parser that
appends "!" to each key — the output is keyed "a!" while the input key
was "a" — and to one key failure and one value failure, whose error paths
carry the raw key "a". -/
theorem record_parsed_keys_out_raw_keys_in_path_witness :
    evalP host0
        (.record (.chain (.string false)
            [fun w => match w with | .str s => .str (s ++ "!") | w2 => w2])
          (.number false))
        (.obj false [("a", .num (.fin 1))])
      = .ret (.Ok (.obj true [("a!", .num (.fin 1))]))
  ∧ evalP host0 (.record (.number false) .boolean) (.obj false [("a", .bool true)])
      = .ret (.Err { typeErr "number" (.str "a") with path := ["a"] })
  ∧ evalP host0 (.record (.string false) (.number false)) (.obj false [("a", .str "x")])
      = .ret (.Err { typeErr "number" (.str "x") with path := ["a"] }) := by
  refine ⟨?_, ?_, ?_⟩
  · exact (record_parsed_keys_out_raw_keys_in_path host0
      (.chain (.string false) [fun w => match w with | .str s => .str (s ++ "!") | w2 => w2])
      (.number false) false).1
      [("a", .num (.fin 1))] [("a!", .num (.fin 1))]
      (.cons ⟨rfl, rfl⟩ .nil)
  · exact (record_parsed_keys_out_raw_keys_in_path host0 (.number false) .boolean false).2.1
      [] [] "a" (.bool true) [] (typeErr "number" (.str "a")) .nil rfl
  · exact (record_parsed_keys_out_raw_keys_in_path host0 (.string false) (.number false) false).2.2
      [] [] "a" (.str "x") (.str "a") [] (typeErr "number" (.str "x")) .nil rfl rfl

end Typed
